import Mathlib

/-!
Verification development for the detect-secrets core: a shallow embedding of
the scan orchestrator (`core/scan.py`), the audit reconciliation engine
(`audit/common.py`), the plugin base contract (`plugins/base.py`), the
high-entropy plugins (`plugins/high_entropy_strings.py`) and the transformer
selector (`transformers/__init__.py`), together with theorems settling the
frozen claims about them.
-/

set_option autoImplicit false

namespace DetectSecrets

/-! ## Candidate secret records -/

/-- Modelled from the spec: `core/potential_secret.py` is not part of the
sources at hand.  Per the spec's Candidate Secret Record (section 3), a record
carries a detector identity string (`type`), a `filename`, a 1-based
`line_number` (0 meaning unknown), a one-way `secret_hash`, the raw
`secret_value`, and an `is_verified` flag. -/
structure PSecret where
  type : String
  filename : String
  secret_hash : String
  secret_value : String
  line_number : Nat
  is_verified : Bool
deriving DecidableEq

/-- Modelled from the spec: two records are the same secret iff
`(type, filename, secret_hash)` match; `line_number` and `secret_value` are
not part of identity (spec section 3). -/
def psEqb (a b : PSecret) : Bool :=
  a.type == b.type && a.filename == b.filename && a.secret_hash == b.secret_hash

/-! ## Transformer selector (`transformers/__init__.py`)

A transformer is modelled, for one fixed file, by whether its
`should_parse_file` predicate accepts the file name, whether it `is_eager`,
and its `parse_file` result (`none` models a raised `ParsingError`). -/

structure TransformerModel where
  should_parse : Bool
  is_eager : Bool
  parse : Option (List String)

/-- `get_transformed_file`: try each registered transformer in order; skip it
when `should_parse_file` rejects the file or its eagerness does not match the
requested mode; return the first successful parse, treating `ParsingError` as
"try the next"; `none` when no transformer matched and succeeded. -/
def get_transformed_file : List TransformerModel → Bool → Option (List String)
  | [], _ => none
  | t :: rest, ue =>
    if !t.should_parse then get_transformed_file rest ue
    else if ue != t.is_eager then get_transformed_file rest ue
    else
      match t.parse with
      | some lines => some lines
      | none => get_transformed_file rest ue

/-- One file on disk, as the scan and audit paths see it: the result of
`f.readlines()` (uncut), the registered transformers specialised to this file,
and whether reading the content raises `UnicodeDecodeError` (binary file). -/
structure FileModel where
  raw_read_lines : List String
  transformers : List TransformerModel
  decode_error : Bool

/-- The lines `get_transformed_file` produces for this file in the given mode. -/
def FileModel.transformed (fm : FileModel) (use_eager : Bool) : Option (List String) :=
  get_transformed_file fm.transformers use_eager

/-! ## Audit line cache (`audit/common.py`, class `LineGetter`) -/

/-- Python `str.rstrip`: drop trailing whitespace. -/
def rstripStr (s : String) : String :=
  String.mk ((s.toList.reverse.dropWhile Char.isWhitespace).reverse)

/-- Python truthiness of an `Optional[List[...]]`: `None` and `[]` are falsy. -/
def optTruthy : Option (List String) → Bool
  | some l => !l.isEmpty
  | none => false

/-- The mutable state of a `LineGetter`: the transformed-lines cache
(`_lines`), the raw-lines cache (`_raw_lines`) and the mode flag
(`_use_eager_transformers`). -/
structure LineGetterState where
  lines : Option (List String)
  raw_lines : Option (List String)
  use_eager_transformers : Bool
deriving DecidableEq

/-- A fresh `LineGetter(filename)`: both caches empty, lazy mode. -/
def initLineGetter : LineGetterState :=
  { lines := none, raw_lines := none, use_eager_transformers := false }

/-- The `raw_lines` property: return the cached value when truthy, otherwise
read the file, strip each line on the right, cache and return. -/
def rawLinesGet (fm : FileModel) (s : LineGetterState) : List String × LineGetterState :=
  if optTruthy s.raw_lines then (s.raw_lines.getD [], s)
  else
    (fm.raw_read_lines.map rstripStr,
      { s with raw_lines := some (fm.raw_read_lines.map rstripStr) })

/-- The `lines` property: return the cached value when truthy; otherwise run
`get_transformed_file` in the current mode and cache its result, falling back
to `raw_lines` when the transformation produced nothing (`None` or `[]`). -/
def linesGet (fm : FileModel) (s : LineGetterState) : List String × LineGetterState :=
  if optTruthy s.lines then (s.lines.getD [], s)
  else
    match fm.transformed s.use_eager_transformers with
    | some l =>
      if l.isEmpty then
        ((rawLinesGet fm s).1,
          ⟨some (rawLinesGet fm s).1, (rawLinesGet fm s).2.raw_lines,
            (rawLinesGet fm s).2.use_eager_transformers⟩)
      else (l, { s with lines := some l })
    | none =>
      ((rawLinesGet fm s).1,
        ⟨some (rawLinesGet fm s).1, (rawLinesGet fm s).2.raw_lines,
          (rawLinesGet fm s).2.use_eager_transformers⟩)

/-- The `has_cached_lines` property: Python truthiness of `_lines`. -/
def has_cached_lines (s : LineGetterState) : Bool :=
  optTruthy s.lines

/-- The `use_eager_transformers` setter: assigning the value already held is a
no-op; otherwise store the new flag and invalidate the transformed-lines
cache (`_lines = None`).  The raw-lines cache is untouched. -/
def set_use_eager_transformers (s : LineGetterState) (status : Bool) : LineGetterState :=
  if status == s.use_eager_transformers then s
  else { s with use_eager_transformers := status, lines := none }

/-! ## Audit reconciliation engine (`audit/common.py`,
`get_raw_secrets_from_file`) -/

/-- The one plugin matching the baseline record's type, as the audit engine
calls it: `analyze_line(line=..., line_number=..., enable_eager_search=...)`.
The filename and code-snippet context arguments do not influence the engine's
control flow and are absorbed into the abstract function. -/
structure AuditPlugin where
  analyzeLine : String → Nat → Bool → List PSecret

/-- The `enable_eager_search` keyword passed to the plugin:
`bool(secret.line_number)`. -/
def enable_eager_search (secret : PSecret) : Bool :=
  secret.line_number != 0

inductive AuditError where
  | secretNotFoundOnSpecifiedLine (line : Nat)
  | fuelExhausted
deriving DecidableEq

/-- One pass of the reconciliation loop body: select the recorded line (or all
lines when `line_number` is 0), run the plugin on each selected line with
`enable_eager_search=bool(secret.line_number)`, and keep the identified
secrets equal to the baseline record. -/
def scanIteration (plugin : AuditPlugin) (secret : PSecret) (fm : FileModel)
    (s : LineGetterState) : Except AuditError (List PSecret × LineGetterState) :=
  if secret.line_number ≠ 0 then
    match (linesGet fm s).1.get? (secret.line_number - 1) with
    | none => .error (.secretNotFoundOnSpecifiedLine secret.line_number)
    | some line =>
      .ok ((plugin.analyzeLine line secret.line_number (enable_eager_search secret)).filter
        (fun t => psEqb t secret), (linesGet fm s).2)
  else
    .ok (((List.range (linesGet fm s).1.length).zip (linesGet fm s).1).flatMap
      (fun q => (plugin.analyzeLine q.2 (q.1 + 1) (enable_eager_search secret)).filter
        (fun t => psEqb t secret)), (linesGet fm s).2)

/-- The `while True` loop of `get_raw_secrets_from_file`, with explicit fuel
(the Python loop is unbounded; the theorems show two units of fuel always
suffice).  Returns the accumulated matches, the final cache state, and the
number of scan passes performed. -/
def reconcileLoop (plugin : AuditPlugin) (secret : PSecret) (fm : FileModel)
    (isFirst : Bool) :
    Nat → LineGetterState → List PSecret →
    Except AuditError (List PSecret × LineGetterState × Nat)
  | 0, _, _ => .error .fuelExhausted
  | fuel + 1, s, acc =>
    match scanIteration plugin secret fm s with
    | .error e => .error e
    | .ok r =>
      let acc2 := acc ++ r.1
      if acc2.isEmpty && isFirst && !r.2.use_eager_transformers then
        match reconcileLoop plugin secret fm isFirst fuel
            (set_use_eager_transformers r.2 true) acc2 with
        | .error e => .error e
        | .ok q => .ok (q.1, q.2.1, q.2.2 + 1)
      else .ok (acc2, r.2, 1)

/-- `get_raw_secrets_from_file`: record whether the cache already held
transformed lines, then run the reconciliation loop. -/
def get_raw_secrets_from_file (plugin : AuditPlugin) (secret : PSecret)
    (fm : FileModel) (fuel : Nat) (s : LineGetterState) :
    Except AuditError (List PSecret × LineGetterState × Nat) :=
  reconcileLoop plugin secret fm (!has_cached_lines s) fuel s []

/-! ### Cache lemmas -/

theorem rawLinesGet_use_eager (fm : FileModel) (s : LineGetterState) :
    (rawLinesGet fm s).2.use_eager_transformers = s.use_eager_transformers := by
  unfold rawLinesGet
  split <;> rfl

theorem rawLinesGet_lines (fm : FileModel) (s : LineGetterState) :
    (rawLinesGet fm s).2.lines = s.lines := by
  unfold rawLinesGet
  split <;> rfl

theorem linesGet_use_eager (fm : FileModel) (s : LineGetterState) :
    (linesGet fm s).2.use_eager_transformers = s.use_eager_transformers := by
  unfold linesGet
  split
  · rfl
  · split
    · split
      · simpa using rawLinesGet_use_eager fm s
      · rfl
    · simpa using rawLinesGet_use_eager fm s

theorem linesGet_cached (fm : FileModel) (s : LineGetterState) :
    (linesGet fm s).2.lines = some (linesGet fm s).1 := by
  unfold linesGet
  split
  · next h =>
    match hs : s.lines with
    | some l =>
      simp [optTruthy, hs] at h
      simp [hs]
    | none => simp [optTruthy, hs] at h
  · split
    · split <;> rfl
    · rfl

theorem scanIteration_use_eager (plugin : AuditPlugin) (secret : PSecret)
    (fm : FileModel) (s : LineGetterState) (r : List PSecret × LineGetterState)
    (h : scanIteration plugin secret fm s = .ok r) :
    r.2.use_eager_transformers = s.use_eager_transformers := by
  unfold scanIteration at h
  split at h
  · split at h
    · exact absurd h (by simp)
    · rw [show r = ((_ : List PSecret), (linesGet fm s).2) from by
        injection h with h2; exact h2.symm]
      exact linesGet_use_eager fm s
  · rw [show r = ((_ : List PSecret), (linesGet fm s).2) from by
      injection h with h2; exact h2.symm]
    exact linesGet_use_eager fm s

theorem set_use_eager_true (s : LineGetterState)
    (h : s.use_eager_transformers = false) :
    (set_use_eager_transformers s true).use_eager_transformers = true := by
  simp [set_use_eager_transformers, h]

/-- With at least two units of fuel, `get_raw_secrets_from_file` is exactly the
two-pass unfolding: one scan pass, then — only when that pass matched nothing,
the cache held no transformed lines at entry, and the cache was not already in
eager mode — a flip to eager mode and exactly one more pass. -/
theorem reconcile_eq_two_pass (plugin : AuditPlugin) (secret : PSecret)
    (fm : FileModel) (n : Nat) (s : LineGetterState) :
    get_raw_secrets_from_file plugin secret fm (n + 2) s =
      match scanIteration plugin secret fm s with
      | .error e => .error e
      | .ok r =>
        if r.1.isEmpty && !has_cached_lines s && !s.use_eager_transformers then
          match scanIteration plugin secret fm (set_use_eager_transformers r.2 true) with
          | .error e => .error e
          | .ok q => .ok (r.1 ++ q.1, q.2, 2)
        else .ok (r.1, r.2, 1) := by
  have huf : ∀ (s' : LineGetterState) (acc : List PSecret) (m : Nat),
      s'.use_eager_transformers = true →
      reconcileLoop plugin secret fm (!has_cached_lines s) (m + 1) s' acc =
        match scanIteration plugin secret fm s' with
        | .error e => .error e
        | .ok q => .ok (acc ++ q.1, q.2, 1) := by
    intro s' acc m h
    rw [reconcileLoop]
    cases h2 : scanIteration plugin secret fm s' with
    | error e => rfl
    | ok q =>
      have hq : q.2.use_eager_transformers = true := by
        rw [scanIteration_use_eager plugin secret fm s' q h2]; exact h
      simp [hq]
  unfold get_raw_secrets_from_file
  rw [show n + 2 = (n + 1) + 1 from rfl, reconcileLoop]
  cases h1 : scanIteration plugin secret fm s with
  | error e => rfl
  | ok r =>
    have hue : r.2.use_eager_transformers = s.use_eager_transformers :=
      scanIteration_use_eager plugin secret fm s r h1
    simp only [List.nil_append, hue]
    by_cases hc : (r.1.isEmpty && !has_cached_lines s && !s.use_eager_transformers) = true
    · have hs_lazy : s.use_eager_transformers = false := by
        simp only [Bool.and_eq_true] at hc
        simpa using hc.2
      have hset : (set_use_eager_transformers r.2 true).use_eager_transformers = true :=
        set_use_eager_true r.2 (by rw [hue]; exact hs_lazy)
      rw [if_pos hc, if_pos hc, huf (set_use_eager_transformers r.2 true) r.1 n hset]
      cases h2 : scanIteration plugin secret fm (set_use_eager_transformers r.2 true) with
      | error e => rfl
      | ok q => rfl
    · rw [if_neg hc, if_neg hc]

theorem optTruthy_eq_some (o : Option (List String)) (h : optTruthy o = true) :
    o = some (o.getD []) ∧ (o.getD []).isEmpty = false := by
  cases o with
  | none => simp [optTruthy] at h
  | some l => simpa [optTruthy] using h

theorem rawLinesGet_cached (fm : FileModel) (s : LineGetterState) :
    (rawLinesGet fm s).2.raw_lines = some (rawLinesGet fm s).1 := by
  unfold rawLinesGet
  split
  · next h => exact (optTruthy_eq_some _ h).1
  · rfl

theorem rawLinesGet_nil (fm : FileModel) (s : LineGetterState)
    (h : (rawLinesGet fm s).1 = []) : fm.raw_read_lines.map rstripStr = [] := by
  unfold rawLinesGet at h
  split at h
  · next ht =>
    have h' : s.raw_lines.getD [] = [] := h
    have h2 := (optTruthy_eq_some _ ht).2
    rw [h'] at h2
    simp at h2
  · exact h

theorem linesGet_of_cached (fm : FileModel) (s : LineGetterState)
    (h : optTruthy s.lines = true) : linesGet fm s = (s.lines.getD [], s) := by
  unfold linesGet
  rw [if_pos h]

/-- When a `lines` access yields `[]`, the computation necessarily went through
the raw fallback with an empty raw read, and the transformed result in the
current mode was falsy. -/
theorem linesGet_empty (fm : FileModel) (s : LineGetterState)
    (h : (linesGet fm s).1 = []) :
    optTruthy s.lines = false ∧
    (rawLinesGet fm s).1 = [] ∧
    linesGet fm s = ([], ⟨some [], (rawLinesGet fm s).2.raw_lines,
      (rawLinesGet fm s).2.use_eager_transformers⟩) ∧
    optTruthy (fm.transformed s.use_eager_transformers) = false := by
  by_cases ht : optTruthy s.lines = true
  · exfalso
    have he := linesGet_of_cached fm s ht
    have h1 : (linesGet fm s).1 = s.lines.getD [] := by rw [he]
    have h2 := (optTruthy_eq_some _ ht).2
    rw [h1.symm.trans h] at h2
    simp at h2
  · have ht' : optTruthy s.lines = false := by
      revert ht; cases optTruthy s.lines <;> simp
    have hun : linesGet fm s =
        match fm.transformed s.use_eager_transformers with
        | some l =>
          if l.isEmpty then
            ((rawLinesGet fm s).1, ⟨some (rawLinesGet fm s).1,
              (rawLinesGet fm s).2.raw_lines, (rawLinesGet fm s).2.use_eager_transformers⟩)
          else (l, { s with lines := some l })
        | none =>
          ((rawLinesGet fm s).1, ⟨some (rawLinesGet fm s).1,
            (rawLinesGet fm s).2.raw_lines, (rawLinesGet fm s).2.use_eager_transformers⟩) := by
      unfold linesGet
      rw [if_neg (by simp [ht'])]
    cases hm : fm.transformed s.use_eager_transformers with
    | some l =>
      simp only [hm] at hun
      by_cases hl : l.isEmpty = true
      · rw [if_pos hl] at hun
        have hre : (linesGet fm s).1 = (rawLinesGet fm s).1 := by rw [hun]
        have hraw : (rawLinesGet fm s).1 = [] := hre.symm.trans h
        refine ⟨ht', hraw, ?_, ?_⟩
        · rw [hun, hraw]
        · simpa [optTruthy] using hl
      · rw [if_neg hl] at hun
        exfalso
        have hre : (linesGet fm s).1 = l := by rw [hun]
        have hleq : l = [] := hre.symm.trans h
        rw [hleq] at hl
        simp at hl
    | none =>
      simp only [hm] at hun
      have hre : (linesGet fm s).1 = (rawLinesGet fm s).1 := by rw [hun]
      have hraw : (rawLinesGet fm s).1 = [] := hre.symm.trans h
      refine ⟨ht', hraw, ?_, ?_⟩
      · rw [hun, hraw]
      · rfl

theorem linesGet_stable (fm : FileModel) (s : LineGetterState) :
    linesGet fm (linesGet fm s).2 = linesGet fm s := by
  by_cases hne : ((linesGet fm s).1).isEmpty = true
  · have hnil : (linesGet fm s).1 = [] := by simpa using hne
    obtain ⟨hocache, hraw, heq, htr⟩ := linesGet_empty fm s hnil
    have hbs : (rawLinesGet fm s).2.raw_lines = some [] := by
      rw [rawLinesGet_cached, hraw]
    have hmap : fm.raw_read_lines.map rstripStr = [] := rawLinesGet_nil fm s hraw
    have hue2 : (rawLinesGet fm s).2.use_eager_transformers = s.use_eager_transformers :=
      rawLinesGet_use_eager fm s
    rw [heq, hbs, hue2]
    have hraw2 : rawLinesGet fm ⟨some [], some [], s.use_eager_transformers⟩ =
        ([], ⟨some [], some [], s.use_eager_transformers⟩) := by
      unfold rawLinesGet
      rw [if_neg (by simp [optTruthy]), hmap]
    have hgoal : linesGet fm ⟨some [], some [], s.use_eager_transformers⟩ =
        ([], ⟨some [], some [], s.use_eager_transformers⟩) := by
      unfold linesGet
      rw [if_neg (by simp [optTruthy])]
      dsimp only
      cases hm : fm.transformed s.use_eager_transformers with
      | none =>
        dsimp only
        rw [hraw2]
      | some l =>
        rw [hm] at htr
        have hl : l.isEmpty = true := by simpa [optTruthy] using htr
        dsimp only
        rw [if_pos hl, hraw2]
    exact hgoal
  · have hoc : optTruthy ((linesGet fm s).2.lines) = true := by
      rw [linesGet_cached]
      simpa [optTruthy] using hne
    rw [linesGet_of_cached fm ((linesGet fm s).2) hoc, linesGet_cached]
    simp

theorem scanIteration_state (plugin : AuditPlugin) (secret : PSecret)
    (fm : FileModel) (s : LineGetterState) (r : List PSecret × LineGetterState)
    (h : scanIteration plugin secret fm s = .ok r) : r.2 = (linesGet fm s).2 := by
  unfold scanIteration at h
  split at h
  · split at h
    · exact absurd h (by simp)
    · injection h with h2
      exact (congrArg Prod.snd h2).symm
  · injection h with h2
    exact (congrArg Prod.snd h2).symm

theorem scanIteration_stable (plugin : AuditPlugin) (secret : PSecret)
    (fm : FileModel) (s : LineGetterState) (r : List PSecret × LineGetterState)
    (h : scanIteration plugin secret fm s = .ok r) :
    scanIteration plugin secret fm r.2 = .ok r := by
  have hr2 : r.2 = (linesGet fm s).2 := scanIteration_state plugin secret fm s r h
  have hlg : linesGet fm r.2 = linesGet fm s := by
    rw [hr2]
    exact linesGet_stable fm s
  unfold scanIteration at h ⊢
  rw [hlg]
  exact h

/-- A second reconciliation of the same record, from the cache state the first
call left behind, reproduces exactly the same matches in a single scan pass. -/
theorem reconcile_idempotent (plugin : AuditPlugin) (secret : PSecret)
    (fm : FileModel) (n m : Nat) (s sF : LineGetterState)
    (secrets : List PSecret) (k : Nat)
    (h : get_raw_secrets_from_file plugin secret fm (n + 2) s = .ok (secrets, sF, k)) :
    get_raw_secrets_from_file plugin secret fm (m + 2) sF = .ok (secrets, sF, 1) := by
  rw [reconcile_eq_two_pass] at h
  rw [reconcile_eq_two_pass]
  cases h1 : scanIteration plugin secret fm s with
  | error e =>
    rw [h1] at h
    exact absurd h (by simp)
  | ok r =>
    rw [h1] at h
    have h' : (if (r.1.isEmpty && !has_cached_lines s && !s.use_eager_transformers) = true then
        match scanIteration plugin secret fm (set_use_eager_transformers r.2 true) with
        | .error e => .error e
        | .ok q => .ok (r.1 ++ q.1, q.2, 2)
      else .ok (r.1, r.2, (1 : Nat))) =
        (Except.ok (secrets, sF, k) :
          Except AuditError (List PSecret × LineGetterState × Nat)) := h
    by_cases hc : (r.1.isEmpty && !has_cached_lines s && !s.use_eager_transformers) = true
    · rw [if_pos hc] at h'
      cases h2 : scanIteration plugin secret fm (set_use_eager_transformers r.2 true) with
      | error e =>
        rw [h2] at h'
        exact absurd h' (by simp)
      | ok q =>
        rw [h2] at h'
        have h4 : (Except.ok (r.1 ++ q.1, q.2, (2 : Nat)) :
            Except AuditError (List PSecret × LineGetterState × Nat)) =
            Except.ok (secrets, sF, k) := h'
        injection h4 with h5
        rw [Prod.mk.injEq, Prod.mk.injEq] at h5
        obtain ⟨ha, hb, hk⟩ := h5
        have hq2 : q.2.use_eager_transformers = true := by
          rw [scanIteration_use_eager plugin secret fm _ q h2]
          refine set_use_eager_true r.2 ?_
          rw [scanIteration_use_eager plugin secret fm s r h1]
          simp only [Bool.and_eq_true] at hc
          simpa using hc.2
        have hr1 : r.1 = [] := by
          simp only [Bool.and_eq_true] at hc
          simpa using hc.1.1
        have hstable : scanIteration plugin secret fm sF = .ok q := by
          rw [← hb]
          exact scanIteration_stable plugin secret fm _ q h2
        rw [hstable]
        show (if (q.1.isEmpty && !has_cached_lines sF && !sF.use_eager_transformers) = true then
            match scanIteration plugin secret fm (set_use_eager_transformers q.2 true) with
            | .error e => .error e
            | .ok p => .ok (q.1 ++ p.1, p.2, 2)
          else .ok (q.1, q.2, (1 : Nat))) = Except.ok (secrets, sF, 1)
        have hsFue : sF.use_eager_transformers = true := by
          rw [← hb]; exact hq2
        rw [if_neg (by simp [hsFue]), ← ha, ← hb, hr1]
        simp
    · rw [if_neg hc] at h'
      have h4 : (Except.ok (r.1, r.2, (1 : Nat)) :
          Except AuditError (List PSecret × LineGetterState × Nat)) =
          Except.ok (secrets, sF, k) := h'
      injection h4 with h5
      rw [Prod.mk.injEq, Prod.mk.injEq] at h5
      obtain ⟨ha, hb, hk⟩ := h5
      have hstable : scanIteration plugin secret fm sF = .ok r := by
        rw [← hb]
        exact scanIteration_stable plugin secret fm s r h1
      rw [hstable]
      show (if (r.1.isEmpty && !has_cached_lines sF && !sF.use_eager_transformers) = true then
          match scanIteration plugin secret fm (set_use_eager_transformers r.2 true) with
          | .error e => .error e
          | .ok p => .ok (r.1 ++ p.1, p.2, 2)
        else .ok (r.1, r.2, (1 : Nat))) = Except.ok (secrets, sF, 1)
      have hcond2 : (r.1.isEmpty && !has_cached_lines sF && !sF.use_eager_transformers) = false := by
        by_cases hemp : r.1.isEmpty = true
        · by_cases hue : s.use_eager_transformers = true
          · have hft : sF.use_eager_transformers = true := by
              rw [← hb, scanIteration_use_eager plugin secret fm s r h1]
              exact hue
            simp [hft]
          · have hcached : has_cached_lines s = true := by
              revert hc
              cases hhc : has_cached_lines s
              · intro hc
                exact absurd (by simp [hemp, hhc, Bool.eq_false_iff.mpr hue]) hc
              · intro _
                rfl
            have hs_eq : linesGet fm s = (s.lines.getD [], s) :=
              linesGet_of_cached fm s hcached
            have hsF_s : sF = s := by
              rw [← hb, scanIteration_state plugin secret fm s r h1, hs_eq]
            rw [hsF_s]
            simp [hcached]
        · simp [hemp]
      rw [if_neg (by simp [hcond2]), ← ha, ← hb]

/-! ## Concrete audit scenarios used as witnesses -/

/-- A file whose only transformer is eager and parses to one line. -/
def auditFileA : FileModel :=
  { raw_read_lines := [],
    transformers := [{ should_parse := true, is_eager := true, parse := some ["sec"] }],
    decode_error := false }

/-- A baseline record with no recorded line number. -/
def auditSecretA : PSecret :=
  { type := "T", filename := "f", secret_hash := "h", secret_value := "sec",
    line_number := 0, is_verified := false }

/-- The record the plugin reconstructs on line 1. -/
def auditFoundA : PSecret :=
  { type := "T", filename := "f", secret_hash := "h", secret_value := "sec",
    line_number := 1, is_verified := false }

/-- A plugin that recognises the literal line "sec". -/
def auditPluginA : AuditPlugin :=
  { analyzeLine := fun line n _ =>
      if line == "sec" then
        [{ type := "T", filename := "f", secret_hash := "h", secret_value := "sec",
           line_number := n, is_verified := false }]
      else [] }

/-- The cache state after reconciling `auditSecretA` against `auditFileA`. -/
def auditEndA : LineGetterState :=
  { lines := some ["sec"], raw_lines := some [], use_eager_transformers := true }

/-- A probe plugin that reports a match exactly when `enable_eager_search` is
passed as `true`. -/
def probePluginB : AuditPlugin :=
  { analyzeLine := fun _ n eager =>
      if eager then
        [{ type := "T", filename := "f", secret_hash := "h", secret_value := "xxxxx",
           line_number := n, is_verified := false }]
      else [] }

/-- The record `probePluginB` would produce under eager search on line 1. -/
def probeFoundB : PSecret :=
  { type := "T", filename := "f", secret_hash := "h", secret_value := "xxxxx",
    line_number := 1, is_verified := false }

/-- A baseline record whose `line_number` is 0 (as `generate_report` forces). -/
def baselineSecretB : PSecret :=
  { type := "T", filename := "f", secret_hash := "h", secret_value := "",
    line_number := 0, is_verified := false }

/-- A one-line file with no applicable transformers. -/
def auditFileB : FileModel :=
  { raw_read_lines := ["xxxxx"], transformers := [], decode_error := false }

/-- The cache state after both reconciliation passes over `auditFileB`. -/
def auditEndB : LineGetterState :=
  { lines := some ["xxxxx"], raw_lines := some ["xxxxx"], use_eager_transformers := true }

/-- `generate_report` (audit/report.py) clears the stored line number before
reconciling, to force complete file scanning. -/
def report_line_number_reset (secret : PSecret) : PSecret :=
  { secret with line_number := 0 }

/-! ## Claim theorems -/

/-- Claim C1: a reconciliation request via `get_raw_secrets_from_file` performs
one scan pass and retries exactly once more — after flipping the cache to eager
mode — precisely when the first pass matched nothing, the line cache held no
transformed lines when the call began, and the cache was not already in eager
mode; in every other case the accumulated matches are returned after the single
pass, so no call performs more than two scan passes (any fuel of at least two
yields this same two-pass unfolding, with the pass count reported). -/
theorem claim_c1_two_pass_retry (plugin : AuditPlugin) (secret : PSecret)
    (fm : FileModel) (n : Nat) (s : LineGetterState) :
    get_raw_secrets_from_file plugin secret fm (n + 2) s =
      match scanIteration plugin secret fm s with
      | .error e => .error e
      | .ok r =>
        if r.1.isEmpty && !has_cached_lines s && !s.use_eager_transformers then
          match scanIteration plugin secret fm (set_use_eager_transformers r.2 true) with
          | .error e => .error e
          | .ok q => .ok (r.1 ++ q.1, q.2, 2)
        else .ok (r.1, r.2, 1) :=
  reconcile_eq_two_pass plugin secret fm n s

/-- Claim C9: assigning the mode flag a value it already holds changes nothing;
assigning a new value invalidates the transformed-lines cache, never the
raw-lines cache; and a second reconciliation of the same record from the state
the first call produced yields the same recovered matches in one pass (so an
already-eager cache is never re-flipped). -/
theorem claim_c9_cache_invalidation_idempotence :
    (∀ s : LineGetterState,
      set_use_eager_transformers s s.use_eager_transformers = s) ∧
    (∀ (s : LineGetterState) (b : Bool),
      (set_use_eager_transformers s b).raw_lines = s.raw_lines) ∧
    (∀ (s : LineGetterState) (b : Bool), b ≠ s.use_eager_transformers →
      (set_use_eager_transformers s b).lines = none ∧
      (set_use_eager_transformers s b).use_eager_transformers = b) ∧
    (∀ (plugin : AuditPlugin) (secret : PSecret) (fm : FileModel) (n m : Nat)
      (s sF : LineGetterState) (secrets : List PSecret) (k : Nat),
      get_raw_secrets_from_file plugin secret fm (n + 2) s = .ok (secrets, sF, k) →
      get_raw_secrets_from_file plugin secret fm (m + 2) sF = .ok (secrets, sF, 1)) := by
  refine ⟨?_, ?_, ?_, ?_⟩
  · intro s
    simp [set_use_eager_transformers]
  · intro s b
    unfold set_use_eager_transformers
    split <;> rfl
  · intro s b hb
    have hbe : (b == s.use_eager_transformers) = false := by
      cases b <;> cases hs : s.use_eager_transformers <;> simp_all
    constructor <;> simp [set_use_eager_transformers, hbe]
  · intro plugin secret fm n m s sF secrets k h
    exact reconcile_idempotent plugin secret fm n m s sF secrets k h

theorem claim_c9_witness :
    (set_use_eager_transformers initLineGetter true).lines = none ∧
    (set_use_eager_transformers initLineGetter true).use_eager_transformers = true ∧
    get_raw_secrets_from_file auditPluginA auditSecretA auditFileA 2 initLineGetter =
      .ok ([auditFoundA], auditEndA, 2) ∧
    get_raw_secrets_from_file auditPluginA auditSecretA auditFileA 2 auditEndA =
      .ok ([auditFoundA], auditEndA, 1) :=
  ⟨(claim_c9_cache_invalidation_idempotence.2.2.1 initLineGetter true (by decide)).1,
   (claim_c9_cache_invalidation_idempotence.2.2.1 initLineGetter true (by decide)).2,
   by rfl,
   claim_c9_cache_invalidation_idempotence.2.2.2 auditPluginA auditSecretA auditFileA
     0 0 initLineGetter auditEndA [auditFoundA] 2 (by rfl)⟩

/-- Claim C6 counterexample: with a baseline record whose `line_number` is 0
(the `generate_report` case), the plugin is invoked with eager search OFF:
a probe plugin that matches exactly when `enable_eager_search=true` — and whose
match has the record's identity — reconstructs nothing, even after the cache
retry, so eager search was not forced on. -/
theorem claim_c6_counterexample :
    enable_eager_search baselineSecretB = false ∧
    probePluginB.analyzeLine "xxxxx" 1 true = [probeFoundB] ∧
    psEqb probeFoundB baselineSecretB = true ∧
    get_raw_secrets_from_file probePluginB baselineSecretB auditFileB 2 initLineGetter =
      .ok ([], auditEndB, 2) := by
  refine ⟨by decide, by rfl, by decide, by rfl⟩

/-- Claim C6 (amended): the audit engine invokes the matching plugin's
`analyze_line` with `enable_eager_search = bool(line_number)`: eager search is
forced on exactly when the record carries a known line number; when the record
carries none (`line_number` 0, as `generate_report` forces via its reset),
every line of the file is searched with eager search off. -/
theorem claim_c6_eager_flag (plugin : AuditPlugin) (secret : PSecret)
    (fm : FileModel) (s : LineGetterState) :
    (secret.line_number = 0 →
      enable_eager_search secret = false ∧
      scanIteration plugin secret fm s =
        .ok (((List.range (linesGet fm s).1.length).zip (linesGet fm s).1).flatMap
          (fun q => (plugin.analyzeLine q.2 (q.1 + 1) false).filter
            (fun t => psEqb t secret)), (linesGet fm s).2)) ∧
    (secret.line_number ≠ 0 →
      enable_eager_search secret = true ∧
      scanIteration plugin secret fm s =
        match (linesGet fm s).1.get? (secret.line_number - 1) with
        | none => .error (.secretNotFoundOnSpecifiedLine secret.line_number)
        | some line =>
          .ok ((plugin.analyzeLine line secret.line_number true).filter
            (fun t => psEqb t secret), (linesGet fm s).2)) ∧
    enable_eager_search (report_line_number_reset secret) = false := by
  refine ⟨?_, ?_, by simp [enable_eager_search, report_line_number_reset]⟩
  · intro h0
    have he : enable_eager_search secret = false := by
      simp [enable_eager_search, h0]
    refine ⟨he, ?_⟩
    unfold scanIteration
    rw [if_neg (by simp [h0]), he]
  · intro hn
    have he : enable_eager_search secret = true := by
      simp [enable_eager_search, hn]
    refine ⟨he, ?_⟩
    unfold scanIteration
    rw [if_pos hn, he]

theorem claim_c6_eager_flag_witness :
    enable_eager_search baselineSecretB = false ∧
    scanIteration probePluginB baselineSecretB auditFileB initLineGetter =
      .ok (((List.range (linesGet auditFileB initLineGetter).1.length).zip
          (linesGet auditFileB initLineGetter).1).flatMap
        (fun q => (probePluginB.analyzeLine q.2 (q.1 + 1) false).filter
          (fun t => psEqb t baselineSecretB)), (linesGet auditFileB initLineGetter).2) ∧
    enable_eager_search auditFoundA = true :=
  ⟨((claim_c6_eager_flag probePluginB baselineSecretB auditFileB initLineGetter).1
      (by decide)).1,
   ((claim_c6_eager_flag probePluginB baselineSecretB auditFileB initLineGetter).1
      (by decide)).2,
   ((claim_c6_eager_flag probePluginB auditFoundA auditFileB initLineGetter).2.1
      (by decide)).1⟩

/-! ## Filter dispatch (`core/scan.py`) -/

/-- A registered filter: its path, its declared injectable-variable names, and
its predicate over the keyword arguments actually supplied to it. -/
structure FilterDesc where
  path : String
  injectable_variables : List String
  pred : List (String × String) → Bool

/-- `get_filters_with_parameter`: exactly the registered filters whose declared
injectable-variable set contains every required parameter
(`minimum_parameters <= filter.injectable_variables`). -/
def get_filters_with_parameter (filters : List FilterDesc)
    (parameters : List String) : List FilterDesc :=
  filters.filter (fun f => parameters.all (fun p => f.injectable_variables.contains p))

/-- Modelled from the spec: `util/inject.py` (`call_function_with_arguments`)
is not part of the sources at hand.  Per spec section 4.2, invocation is
keyword-based: the dispatcher supplies only the named values a filter declares
needing, ignoring extras; when the signature cannot accept the supplied values
(a declared name is missing from the keyword arguments) the call raises
`TypeError` (`none` here) and the filter body never runs. -/
def callFilterWithArguments (f : FilterDesc) (kwargs : List (String × String)) :
    Option Bool :=
  if f.injectable_variables.all (fun v => (kwargs.map Prod.fst).contains v) then
    some (f.pred (kwargs.filter (fun kv => f.injectable_variables.contains kv.1)))
  else none

/-- The filters whose bodies actually run during one `_is_filtered_out` call:
those selected by `get_filters_with_parameter`, reached before the first
suppressing filter (the loop returns on the first `True`), and callable with
the supplied keyword arguments (a `TypeError` is swallowed, skipping that
filter). -/
def invokedFiltersAux : List FilterDesc → List (String × String) → List FilterDesc
  | [], _ => []
  | f :: rest, kwargs =>
    match callFilterWithArguments f kwargs with
    | none => invokedFiltersAux rest kwargs
    | some true => [f]
    | some false => f :: invokedFiltersAux rest kwargs

def invokedFilters (filters : List FilterDesc) (required : List String)
    (kwargs : List (String × String)) : List FilterDesc :=
  invokedFiltersAux (get_filters_with_parameter filters required) kwargs

/-- `_is_filtered_out`: some applicable filter reports suppression;
`TypeError` from a non-compatible filter counts as "does not suppress". -/
def is_filtered_out (filters : List FilterDesc) (required : List String)
    (kwargs : List (String × String)) : Bool :=
  (get_filters_with_parameter filters required).any
    (fun f => (callFilterWithArguments f kwargs).getD false)

theorem callFilterWithArguments_some (f : FilterDesc)
    (kwargs : List (String × String)) (b : Bool)
    (h : callFilterWithArguments f kwargs = some b) :
    (f.injectable_variables.all (fun v => (kwargs.map Prod.fst).contains v)) = true := by
  unfold callFilterWithArguments at h
  split at h
  · next hc => exact hc
  · exact absurd h (by simp)

theorem invokedFiltersAux_callable (fs : List FilterDesc)
    (kwargs : List (String × String)) (f : FilterDesc)
    (h : f ∈ invokedFiltersAux fs kwargs) :
    (f.injectable_variables.all (fun v => (kwargs.map Prod.fst).contains v)) = true := by
  induction fs with
  | nil => simp [invokedFiltersAux] at h
  | cons g rest ih =>
    unfold invokedFiltersAux at h
    cases hc : callFilterWithArguments g kwargs with
    | none =>
      rw [hc] at h
      exact ih h
    | some b =>
      rw [hc] at h
      cases b with
      | true =>
        have hfg : f = g := by simpa using h
        rw [hfg]
        exact callFilterWithArguments_some g kwargs true hc
      | false =>
        rcases List.mem_cons.mp h with hfg | hmem
        · rw [hfg]
          exact callFilterWithArguments_some g kwargs false hc
        · exact ih hmem

/-! ## Scan orchestrator (`core/scan.py`) -/

/-- Default of the `CHECKOV_MIN_LINE_LENGTH` environment variable. -/
def MIN_LINE_LENGTH : Nat := 5

/-- Python `str.strip()`: drop leading and trailing whitespace. -/
def stripChars (l : List Char) : List Char :=
  ((l.dropWhile Char.isWhitespace).reverse.dropWhile Char.isWhitespace).reverse

def stripStr (s : String) : String :=
  String.mk (stripChars s.toList)

/-- A detector plugin as the orchestrator drives it: `analyze_line` over the
line text and 1-based line number (filename and snippet contexts are absorbed
into the abstract function, as they do not affect orchestration). -/
structure ScanPlugin where
  analyzeLine : String → Nat → List PSecret

/-- `_scan_line`: run one plugin on one line and keep the candidates surviving
the secret-level filters (`required_filter_parameters=['secret']`). -/
def scan_line_plugin (plugin : ScanPlugin) (secretFiltered : PSecret → Bool)
    (line : String) (line_number : Nat) : List PSecret :=
  (plugin.analyzeLine line line_number).filter (fun t => !secretFiltered t)

/-- `_process_line_based_plugins`: per line — strip, skip when shorter than
`MIN_LINE_LENGTH`, apply the line-level filters, then run every plugin and
apply the context-level filters to each produced record.  The line-level and
secret/context-level `_is_filtered_out` calls carry code-snippet contexts not
modelled here, so they enter as abstract predicates. -/
def process_line_based_plugins (plugins : List ScanPlugin)
    (lineFiltered : String → Bool) (secretFiltered contextFiltered : PSecret → Bool)
    (lines : List (Nat × String)) : List PSecret :=
  lines.flatMap (fun nl =>
    if (stripStr nl.2).length < MIN_LINE_LENGTH then []
    else if lineFiltered (stripStr nl.2) then []
    else plugins.flatMap (fun plugin =>
      (scan_line_plugin plugin secretFiltered (stripStr nl.2) nl.1).filter
        (fun t => !contextFiltered t)))

/-- The first batch `_get_lines_from_file` yields: the lazy transformation, or
the raw `readlines()` content when it produced nothing. -/
def firstAttemptLines (fm : FileModel) : List String :=
  match fm.transformed false with
  | some l => if l.isEmpty then fm.raw_read_lines else l
  | none => fm.raw_read_lines

/-- `_get_lines_from_file`: nothing on a decoding error (binary file);
otherwise the lazy-or-raw batch, then the eager batch when the eager
transformation yields lines. -/
def get_lines_from_file (fm : FileModel) : List (List String) :=
  if fm.decode_error then []
  else
    firstAttemptLines fm ::
      (match fm.transformed true with
        | some l => if l.isEmpty then [] else [l]
        | none => [])

/-- The `has_secret`/`break` loop of `scan_file`: yield every secret of each
batch in turn, and stop after the first batch that produced any. -/
def scanFileAttempts : List (List PSecret) → List PSecret
  | [] => []
  | r :: rest => if r.isEmpty then scanFileAttempts rest else r

/-- `scan_file`: nothing without plugins; file-level filtering
(`required_filter_parameters=['filename']`); `IOError` skips the file; then
scan the batches from `_get_lines_from_file`, stopping after the first batch
with a finding. -/
def scan_file (filters : List FilterDesc) (plugins : List ScanPlugin)
    (lineFiltered : String → Bool) (secretFiltered contextFiltered : PSecret → Bool)
    (filename : String) (fm : FileModel) (io_error : Bool) : List PSecret :=
  if plugins.isEmpty then []
  else if is_filtered_out filters ["filename"] [("filename", filename)] then []
  else if io_error then []
  else
    scanFileAttempts ((get_lines_from_file fm).map (fun lines =>
      process_line_based_plugins plugins lineFiltered secretFiltered contextFiltered
        (List.enumFrom 1 lines)))

/-! ## Concrete scan scenarios -/

/-- An example filter declaring it needs `{filename, secret}`. -/
def exampleFilenameSecretFilter : FilterDesc :=
  { path := "example.filename_secret", injectable_variables := ["filename", "secret"],
    pred := fun _ => true }

def scanSecA : PSecret :=
  { type := "T", filename := "f", secret_hash := "ha", secret_value := "AAAAAA",
    line_number := 1, is_verified := false }

def scanSecB : PSecret :=
  { type := "T", filename := "f", secret_hash := "hb", secret_value := "BBBBBB",
    line_number := 2, is_verified := false }

/-- A plugin recognising two distinct secrets on two distinct lines. -/
def scanPluginTwo : ScanPlugin :=
  { analyzeLine := fun line _ =>
      if line == "AAAAAA" then [scanSecA]
      else if line == "BBBBBB" then [scanSecB]
      else [] }

/-- Lazy transformation yields the two-secret lines; an eager transformer also
exists (its result must never be consulted once the lazy pass matched). -/
def scanFileModelC2 : FileModel :=
  { raw_read_lines := [],
    transformers :=
      [{ should_parse := true, is_eager := false, parse := some ["AAAAAA", "BBBBBB"] },
       { should_parse := true, is_eager := true, parse := some ["CCCCCC"] }],
    decode_error := false }

/-- Lazy transformation yields nothing, eager parses, and raw content exists. -/
def fileModelC5 : FileModel :=
  { raw_read_lines := ["RAW"],
    transformers := [{ should_parse := true, is_eager := true, parse := some ["EAGER"] }],
    decode_error := false }

/-! ## Claim theorems for filter dispatch and scanning -/

/-- Claim C3: `get_filters_with_parameter` returns exactly the registered
filters whose declared injectable-variable set is a superset of the required
set; in particular a `{filename, secret}` filter is selected for required set
`{secret}` and not selected for required set `{line}` alone. -/
theorem claim_c3_superset_selection :
    (∀ (filters : List FilterDesc) (parameters : List String) (f : FilterDesc),
      f ∈ get_filters_with_parameter filters parameters ↔
        f ∈ filters ∧ ∀ p ∈ parameters, p ∈ f.injectable_variables) ∧
    exampleFilenameSecretFilter ∈
      get_filters_with_parameter [exampleFilenameSecretFilter] ["secret"] ∧
    exampleFilenameSecretFilter ∉
      get_filters_with_parameter [exampleFilenameSecretFilter] ["line"] := by
  refine ⟨?_, ?_, ?_⟩
  · intro filters parameters f
    simp [get_filters_with_parameter, List.mem_filter, List.all_eq_true]
  · simp [get_filters_with_parameter, exampleFilenameSecretFilter]
  · simp [get_filters_with_parameter, exampleFilenameSecretFilter]

theorem claim_c3_witness :
    exampleFilenameSecretFilter ∈
      get_filters_with_parameter [exampleFilenameSecretFilter] ["secret"] ∧
    exampleFilenameSecretFilter ∉
      get_filters_with_parameter [exampleFilenameSecretFilter] ["line"] :=
  ⟨(claim_c3_superset_selection.1 [exampleFilenameSecretFilter] ["secret"]
      exampleFilenameSecretFilter).mpr
      ⟨by simp, by intro p hp; simp at hp; rw [hp]; decide⟩,
   fun h =>
    absurd (((claim_c3_superset_selection.1 [exampleFilenameSecretFilter] ["line"]
      exampleFilenameSecretFilter).mp h).2 "line" (by simp)) (by decide)⟩

/-- Claim C4: during file-level filtering (`required_filter_parameters =
['filename']`, keyword arguments carrying only `filename`), no filter whose
declared variables include `secret` — whether `{secret}` alone or
`{filename, secret}` — ever has its body invoked: either it is not selected,
or the keyword-based call raises `TypeError`, which is swallowed. -/
theorem claim_c4_file_level_skips_secret_filters
    (filters : List FilterDesc) (fn : String) (f : FilterDesc)
    (hf : "secret" ∈ f.injectable_variables) :
    f ∉ invokedFilters filters ["filename"] [("filename", fn)] := by
  intro hmem
  unfold invokedFilters at hmem
  have hall := invokedFiltersAux_callable _ _ f hmem
  rw [List.all_eq_true] at hall
  have hv : (["filename"] : List String).contains "secret" = true := hall "secret" hf
  exact absurd hv (by decide)

theorem claim_c4_witness :
    "secret" ∈ exampleFilenameSecretFilter.injectable_variables ∧
    exampleFilenameSecretFilter ∉
      invokedFilters [exampleFilenameSecretFilter] ["filename"] [("filename", "x")] :=
  ⟨by decide,
   claim_c4_file_level_skips_secret_filters [exampleFilenameSecretFilter] "x"
     exampleFilenameSecretFilter (by decide)⟩

/-- Claim C2 counterexample: a file whose first (lazy) batch contains two
distinct secrets on two lines.  `scan_file` yields BOTH of them — it does not
stop at the first secret of the batch — refuting "reports only the first one
encountered in line order". -/
theorem claim_c2_counterexample :
    scan_file [] [scanPluginTwo] (fun _ => false) (fun _ => false) (fun _ => false)
      "f" scanFileModelC2 false = [scanSecA, scanSecB] ∧
    scanSecA ≠ scanSecB ∧
    [scanSecA, scanSecB] ≠ [scanSecA] := by
  refine ⟨by decide, by decide, by decide⟩

/-- Claim C2 (amended): `scan_file` stops trying further transformation
attempts — in particular the eager attempt — as soon as one attempt yields any
secret, but within that attempt every secret is yielded in line order: when the
first batch produces a non-empty result, `scan_file` returns exactly that
result, an expression in which the eager transformation does not occur. -/
theorem claim_c2_first_batch_all_secrets
    (filters : List FilterDesc) (plugins : List ScanPlugin)
    (lineFiltered : String → Bool) (secretFiltered contextFiltered : PSecret → Bool)
    (filename : String) (fm : FileModel) (io_error : Bool)
    (hp : plugins ≠ [])
    (hgate : is_filtered_out filters ["filename"] [("filename", filename)] = false)
    (hio : io_error = false)
    (hdec : fm.decode_error = false)
    (hfirst : process_line_based_plugins plugins lineFiltered secretFiltered
      contextFiltered (List.enumFrom 1 (firstAttemptLines fm)) ≠ []) :
    scan_file filters plugins lineFiltered secretFiltered contextFiltered
      filename fm io_error =
    process_line_based_plugins plugins lineFiltered secretFiltered contextFiltered
      (List.enumFrom 1 (firstAttemptLines fm)) := by
  unfold scan_file
  rw [if_neg (by simp [hp]), if_neg (by simp [hgate]), if_neg (by simp [hio])]
  unfold get_lines_from_file
  rw [if_neg (by simp [hdec])]
  rw [List.map_cons]
  unfold scanFileAttempts
  rw [if_neg (by simp [hfirst])]

theorem claim_c2_first_batch_witness :
    scan_file [] [scanPluginTwo] (fun _ => false) (fun _ => false) (fun _ => false)
      "f" scanFileModelC2 false =
    process_line_based_plugins [scanPluginTwo] (fun _ => false) (fun _ => false)
      (fun _ => false) (List.enumFrom 1 (firstAttemptLines scanFileModelC2)) :=
  claim_c2_first_batch_all_secrets [] [scanPluginTwo] (fun _ => false) (fun _ => false)
    (fun _ => false) "f" scanFileModelC2 false (List.cons_ne_nil _ _) (by rfl) rfl rfl
    (by decide)

/-- Claim C5 counterexample: for a file whose lazy transformation produces no
lines, the scan path's FIRST batch is already the raw line-splitting fallback;
the eager transformation is only offered as the SECOND batch — so eager is not
tried before falling back to raw lines, refuting the claimed order. -/
theorem claim_c5_counterexample :
    fileModelC5.transformed false = none ∧
    fileModelC5.transformed true = some ["EAGER"] ∧
    get_lines_from_file fileModelC5 = [["RAW"], ["EAGER"]] ∧
    (get_lines_from_file fileModelC5).head? = some ["RAW"] ∧
    (get_lines_from_file fileModelC5).head? ≠ some ["EAGER"] := by
  refine ⟨by decide, by decide, by decide, by decide, by decide⟩

/-- Claim C5 (amended): for every file whose lazy transformation produces no
lines, the first scan batch is the plain line-splitting of the raw content,
and the eager-mode transformation is offered as a second batch, consumed only
when the caller finds the first batch unproductive: eager is tried before the
file is finally abandoned, but after — not before — the raw-line fallback. -/
theorem claim_c5_raw_then_eager (fm : FileModel)
    (hdec : fm.decode_error = false)
    (hlazy : optTruthy (fm.transformed false) = false) :
    get_lines_from_file fm = fm.raw_read_lines ::
      (match fm.transformed true with
        | some l => if l.isEmpty then [] else [l]
        | none => []) := by
  unfold get_lines_from_file firstAttemptLines
  rw [if_neg (by simp [hdec])]
  cases hm : fm.transformed false with
  | none => rfl
  | some l =>
    rw [hm] at hlazy
    have hl : l.isEmpty = true := by simpa [optTruthy] using hlazy
    dsimp only
    rw [if_pos hl]

theorem claim_c5_raw_then_eager_witness :
    get_lines_from_file fileModelC5 = ["RAW"] ::
      (match fileModelC5.transformed true with
        | some l => if l.isEmpty then [] else [l]
        | none => []) :=
  claim_c5_raw_then_eager fileModelC5 rfl (by decide)

/-! ## Plugin base contract (`plugins/base.py`, `BasePlugin.analyze_line`) -/

inductive VerifiedResult where
  | verifiedFalse
  | unverified
  | verifiedTrue
deriving DecidableEq

/-- The possible outcomes of one `verify` invocation: a returned result, a
raised `requests.exceptions.RequestException`, or any other raised exception. -/
inductive VerifyOutcome where
  | result (r : VerifiedResult)
  | requestException
  | otherException
deriving DecidableEq

/-- The verification context of `BasePlugin.analyze_line`: whether the
verification-policy filter is present in the settings (absent under
`--no-verify`), the plugin's `verify` behaviour per candidate string, and the
`hash_secret` function the `PotentialSecret` constructor applies (modelled
from the spec, `core/potential_secret.py` not being under src). -/
structure VerifierModel where
  verification_enabled : Bool
  verify : String → VerifyOutcome
  hash_secret : String → String

/-- Modelled from the spec: the `PotentialSecret` constructed for one raw
match — detector type, filename, hashed and raw value, line number, and the
verification flag computed by `analyze_line`. -/
def mkCandidate (vm : VerifierModel) (stype filename : String)
    (line_number : Nat) (m : String) (is_verified : Bool) : PSecret :=
  { type := stype, filename := filename, secret_hash := vm.hash_secret m,
    secret_value := m, line_number := line_number, is_verified := is_verified }

/-- The `is_verified` flag recorded for a match: true only when verification
is enabled and `verify` returned `VERIFIED_TRUE`; a `RequestException` yields
false. -/
def verifiedFlag (vm : VerifierModel) (m : String) : Bool :=
  vm.verification_enabled &&
    match vm.verify m with
    | .result r => r == .verifiedTrue
    | _ => false

/-- `BasePlugin.analyze_line` over the raw matches of `analyze_string`: when
verification is enabled, each match is verified; a `RequestException` is
caught and the candidate recorded unverified, while any other exception
propagates (only `requests.exceptions.RequestException` is in the `except`
clause) and aborts the call.  The Python `set` is modelled as the list in
insertion order. -/
def analyze_line_base (vm : VerifierModel) (stype filename : String)
    (line_number : Nat) : List String → Except Unit (List PSecret)
  | [] => .ok []
  | m :: rest =>
    if vm.verification_enabled && (vm.verify m == VerifyOutcome.otherException) then
      .error ()
    else
      match analyze_line_base vm stype filename line_number rest with
      | .error e => .error e
      | .ok out =>
        .ok (mkCandidate vm stype filename line_number m (verifiedFlag vm m) :: out)

theorem analyze_line_base_ok (vm : VerifierModel) (stype filename : String)
    (line_number : Nat) :
    ∀ ms : List String,
    (∀ m ∈ ms,
      (vm.verification_enabled && (vm.verify m == VerifyOutcome.otherException)) = false) →
    analyze_line_base vm stype filename line_number ms =
      .ok (ms.map (fun m =>
        mkCandidate vm stype filename line_number m (verifiedFlag vm m))) := by
  intro ms
  induction ms with
  | nil =>
    intro _
    rfl
  | cons m rest ih =>
    intro h
    unfold analyze_line_base
    rw [if_neg (by simp [h m (by simp)])]
    rw [ih (fun x hx => h x (by simp [hx]))]
    rfl

/-- A verifier raising an exception that is not a `RequestException`. -/
def failingVerifier : VerifierModel :=
  { verification_enabled := true, verify := fun _ => .otherException,
    hash_secret := fun s => s }

/-- A verifier whose network call always fails with a `RequestException`. -/
def flakyVerifier : VerifierModel :=
  { verification_enabled := true, verify := fun _ => .requestException,
    hash_secret := fun s => s }

/-- Claim C7 counterexample: an exception other than
`requests.exceptions.RequestException` raised during verification is NOT
swallowed — `analyze_line` aborts and no candidate is produced, refuting
"for every exception ... the candidate is still added ... and the scan never
aborts". -/
theorem claim_c7_counterexample :
    analyze_line_base failingVerifier "T" "f" 1 ["abc"] = .error () ∧
    analyze_line_base failingVerifier "T" "f" 1 ["abc"] ≠
      .ok [mkCandidate failingVerifier "T" "f" 1 "abc" false] := by
  refine ⟨rfl, ?_⟩
  intro h
  rw [show analyze_line_base failingVerifier "T" "f" 1 ["abc"] = .error () from rfl] at h
  exact Except.noConfusion h

/-- Claim C7 (amended): every `requests.exceptions.RequestException` raised
while verifying is swallowed — the candidate is still recorded with
`is_verified` false and the scan continues: whenever no match's verification
raises a different exception, `analyze_line` returns a candidate per match
(request-failures unverified); exceptions of other types propagate. -/
theorem claim_c7_request_exception_swallowed (vm : VerifierModel)
    (stype filename : String) (line_number : Nat) (ms : List String)
    (h : ∀ m ∈ ms,
      (vm.verification_enabled && (vm.verify m == VerifyOutcome.otherException)) = false) :
    analyze_line_base vm stype filename line_number ms =
      .ok (ms.map (fun m =>
        mkCandidate vm stype filename line_number m (verifiedFlag vm m))) ∧
    (∀ m : String, vm.verify m = .requestException → verifiedFlag vm m = false) := by
  refine ⟨analyze_line_base_ok vm stype filename line_number ms h, ?_⟩
  intro m hm
  unfold verifiedFlag
  rw [hm]
  simp

theorem claim_c7_witness :
    analyze_line_base flakyVerifier "T" "f" 1 ["a"] =
      .ok [mkCandidate flakyVerifier "T" "f" 1 "a" (verifiedFlag flakyVerifier "a")] ∧
    verifiedFlag flakyVerifier "a" = false :=
  ⟨(claim_c7_request_exception_swallowed flakyVerifier "T" "f" 1 ["a"] (by decide)).1,
   (claim_c7_request_exception_swallowed flakyVerifier "T" "f" 1 ["a"] (by decide)).2
     "a" rfl⟩

/-! ## High-entropy string plugins (`plugins/high_entropy_strings.py`)

Python float arithmetic is modelled over the real numbers, so the entropy
definitions are `noncomputable`; every other definition stays executable. -/

/-- `string.hexdigits`. -/
def hexCharset : List Char :=
  "0123456789abcdefABCDEF".toList

/-- `HighEntropyStringsPlugin.calculate_shannon_entropy`: 0 for empty data,
otherwise the sum over the charset's symbols of `-p * log2 p` for each symbol
with positive frequency `p = count/len` in the data. -/
noncomputable def calculate_shannon_entropy (charset : List Char)
    (data : List Char) : ℝ :=
  if data.isEmpty then 0
  else
    (charset.map (fun x =>
      if (0 : ℝ) < (data.count x : ℝ) / (data.length : ℝ) then
        -((data.count x : ℝ) / (data.length : ℝ) *
          Real.logb 2 ((data.count x : ℝ) / (data.length : ℝ)))
      else 0)).sum

/-- One digit run as `int()` accepts after the optional sign: underscores may
appear only singly and between digits. -/
def digitsRun : List Char → Bool
  | [] => true
  | c :: cs =>
    if c.isDigit then digitsRun cs
    else if c = '_' then
      (match cs with
       | d :: _ => d.isDigit
       | [] => false) && digitsRun cs
    else false

def pyIntDigits (l : List Char) : Bool :=
  (match l with
   | [] => false
   | c :: _ => c.isDigit) && digitsRun l

/-- Whether `int(data)` succeeds: optional surrounding whitespace, optional
single sign, then a nonempty digit run with optional grouping underscores. -/
def pyIntLiteral (l : List Char) : Bool :=
  match stripChars l with
  | [] => false
  | c :: cs => if c = '+' ∨ c = '-' then pyIntDigits cs else pyIntDigits (c :: cs)

/-- The penalty `HexHighEntropyString` subtracts: `1.2 / log2(len)`. -/
noncomputable def hexPenalty (n : Nat) : ℝ :=
  1.2 / Real.logb 2 (n : ℝ)

/-- `HexHighEntropyString.calculate_shannon_entropy`: base entropy, returned
unchanged for length-1 data; diminished by `hexPenalty` when `int(data)`
succeeds; unchanged when `int(data)` raises `ValueError`. -/
noncomputable def hex_calculate_shannon_entropy (data : List Char) : ℝ :=
  if data.length == 1 then calculate_shannon_entropy hexCharset data
  else if pyIntLiteral data then
    calculate_shannon_entropy hexCharset data - hexPenalty data.length
  else calculate_shannon_entropy hexCharset data

/-- The non-digit members of the hex charset. -/
def isHexLetter (c : Char) : Bool :=
  ['a', 'b', 'c', 'd', 'e', 'f', 'A', 'B', 'C', 'D', 'E', 'F'].contains c

/-! ### Character-class lemmas -/

theorem isDigit_not_whitespace (c : Char) (h : c.isDigit = true) :
    c.isWhitespace = false := by
  cases hw : c.isWhitespace with
  | false => rfl
  | true =>
    exfalso
    simp [Char.isWhitespace] at hw
    rcases hw with ((h1 | h1) | h1) | h1 <;> (subst h1; exact absurd h (by decide))

theorem hexLetter_props (c : Char) (h : isHexLetter c = true) :
    c.isDigit = false ∧ c.isWhitespace = false ∧ c ≠ '_' ∧ c ≠ '+' ∧ c ≠ '-' := by
  have hm : c ∈ ['a', 'b', 'c', 'd', 'e', 'f', 'A', 'B', 'C', 'D', 'E', 'F'] := by
    simpa [isHexLetter] using h
  fin_cases hm <;> exact ⟨by decide, by decide, by decide, by decide, by decide⟩

theorem mem_dropWhile_of_neg (p : Char → Bool) (l : List Char) (c : Char)
    (hc : p c = false) (h : c ∈ l) : c ∈ l.dropWhile p := by
  induction l with
  | nil => simp at h
  | cons a rest ih =>
    rw [List.dropWhile_cons]
    by_cases hpa : p a = true
    · rw [if_pos hpa]
      rcases List.mem_cons.mp h with rfl | hmem
      · rw [hc] at hpa
        exact absurd hpa (by simp)
      · exact ih hmem
    · rw [if_neg hpa]
      exact h

theorem mem_stripChars (l : List Char) (c : Char)
    (hws : c.isWhitespace = false) (h : c ∈ l) : c ∈ stripChars l := by
  unfold stripChars
  rw [List.mem_reverse]
  refine mem_dropWhile_of_neg _ _ _ hws ?_
  rw [List.mem_reverse]
  exact mem_dropWhile_of_neg _ _ _ hws h

theorem digitsRun_mem (l : List Char) (h : digitsRun l = true) :
    ∀ c ∈ l, c.isDigit = true ∨ c = '_' := by
  induction l with
  | nil =>
    intro c hc
    simp at hc
  | cons a rest ih =>
    intro c hc
    unfold digitsRun at h
    by_cases ha : a.isDigit = true
    · rw [if_pos ha] at h
      rcases List.mem_cons.mp hc with rfl | hmem
      · exact Or.inl ha
      · exact ih h c hmem
    · rw [if_neg ha] at h
      by_cases ha2 : a = '_'
      · rw [if_pos ha2] at h
        simp only [Bool.and_eq_true] at h
        rcases List.mem_cons.mp hc with rfl | hmem
        · exact Or.inr ha2
        · exact ih h.2 c hmem
      · rw [if_neg ha2] at h
        exact absurd h (by simp)

theorem pyIntLiteral_hexLetter (l : List Char) (c : Char) (hc : c ∈ l)
    (hh : isHexLetter c = true) : pyIntLiteral l = false := by
  obtain ⟨hd, hw, hu, hp, hm⟩ := hexLetter_props c hh
  cases hpb : pyIntLiteral l with
  | false => rfl
  | true =>
    exfalso
    have hcs : c ∈ stripChars l := mem_stripChars l c hw hc
    unfold pyIntLiteral at hpb
    cases hsc : stripChars l with
    | nil =>
      rw [hsc] at hpb
      simp at hpb
    | cons a rest =>
      rw [hsc] at hpb hcs
      have hpb2 : (if a = '+' ∨ a = '-' then pyIntDigits rest
          else pyIntDigits (a :: rest)) = true := hpb
      by_cases hsign : a = '+' ∨ a = '-'
      · rw [if_pos hsign] at hpb2
        rcases List.mem_cons.mp hcs with rfl | hmem
        · rcases hsign with h1 | h1
          · exact hp h1
          · exact hm h1
        · have hrun : digitsRun rest = true := by
            simp only [pyIntDigits, Bool.and_eq_true] at hpb2
            exact hpb2.2
          rcases digitsRun_mem rest hrun c hmem with h1 | h1
          · rw [h1] at hd
            exact absurd hd (by simp)
          · exact hu h1
      · rw [if_neg hsign] at hpb2
        have hrun : digitsRun (a :: rest) = true := by
          simp only [pyIntDigits, Bool.and_eq_true] at hpb2
          exact hpb2.2
        rcases digitsRun_mem (a :: rest) hrun c hcs with h1 | h1
        · rw [h1] at hd
          exact absurd hd (by simp)
        · exact hu h1

theorem dropWhile_ws_all_digits (l : List Char) (h : ∀ c ∈ l, c.isDigit = true) :
    l.dropWhile Char.isWhitespace = l := by
  cases l with
  | nil => rfl
  | cons a rest =>
    rw [List.dropWhile_cons,
      if_neg (by simp [isDigit_not_whitespace a (h a (by simp))])]

theorem stripChars_all_digits (l : List Char) (h : ∀ c ∈ l, c.isDigit = true) :
    stripChars l = l := by
  unfold stripChars
  rw [dropWhile_ws_all_digits l h,
    dropWhile_ws_all_digits l.reverse (fun c hc => h c (List.mem_reverse.mp hc)),
    List.reverse_reverse]

theorem digitsRun_all_digits (l : List Char) (h : ∀ c ∈ l, c.isDigit = true) :
    digitsRun l = true := by
  induction l with
  | nil => rfl
  | cons a rest ih =>
    unfold digitsRun
    rw [if_pos (h a (by simp))]
    exact ih (fun c hc => h c (by simp [hc]))

theorem pyIntLiteral_all_digits (l : List Char) (hne : l ≠ [])
    (h : ∀ c ∈ l, c.isDigit = true) : pyIntLiteral l = true := by
  unfold pyIntLiteral
  rw [stripChars_all_digits l h]
  cases l with
  | nil => exact absurd rfl hne
  | cons a rest =>
    have ha : a.isDigit = true := h a (by simp)
    show (if a = '+' ∨ a = '-' then pyIntDigits rest
      else pyIntDigits (a :: rest)) = true
    rw [if_neg (by rintro (rfl | rfl) <;> exact absurd ha (by decide))]
    show (a.isDigit && digitsRun (a :: rest)) = true
    rw [ha, digitsRun_all_digits (a :: rest) h]
    rfl

/-! ### Entropy lemmas -/

/-- The entropy of `n` copies of one character is 0: the one positive
frequency is 1 and `log2 1 = 0`. -/
theorem entropy_replicate (charset : List Char) (c : Char) (n : Nat)
    (hn : 0 < n) :
    calculate_shannon_entropy charset (List.replicate n c) = 0 := by
  unfold calculate_shannon_entropy
  rw [if_neg (by simp [List.isEmpty_iff]; omega)]
  refine List.sum_eq_zero ?_
  intro y hy
  rw [List.mem_map] at hy
  obtain ⟨x, hx, rfl⟩ := hy
  by_cases hxc : (c == x) = true
  · rw [List.count_replicate, if_pos hxc, List.length_replicate]
    have hne : (n : ℝ) ≠ 0 := Nat.cast_ne_zero.mpr (by omega)
    rw [div_self hne]
    norm_num
  · rw [List.count_replicate, if_neg hxc]
    norm_num

theorem hexPenalty_pos (n : Nat) (h : 2 ≤ n) : 0 < hexPenalty n := by
  unfold hexPenalty
  refine div_pos (by norm_num) ?_
  refine Real.logb_pos (by norm_num) ?_
  exact_mod_cast (by omega : 1 < n)

/-- Claim C8: the hex-entropy subtype scores a decimal-integer string of
length at least 2 as its charset Shannon entropy minus `1.2 / log2(length)`;
length-1 strings and non-integer strings receive no penalty; the penalty
strictly shrinks as the length grows; and an all-digit string scores strictly
below a same-length string containing non-digit hex characters whose
frequencies contribute the same base entropy. -/
theorem claim_c8_hex_entropy_penalty :
    (∀ data : List Char, 2 ≤ data.length → pyIntLiteral data = true →
      hex_calculate_shannon_entropy data =
        calculate_shannon_entropy hexCharset data -
          1.2 / Real.logb 2 (data.length : ℝ)) ∧
    (∀ data : List Char, data.length = 1 →
      hex_calculate_shannon_entropy data = calculate_shannon_entropy hexCharset data) ∧
    (∀ data : List Char, pyIntLiteral data = false →
      hex_calculate_shannon_entropy data = calculate_shannon_entropy hexCharset data) ∧
    (∀ m n : Nat, 2 ≤ m → m < n → hexPenalty n < hexPenalty m) ∧
    (∀ s₁ s₂ : List Char, (∀ c ∈ s₁, c.isDigit = true) → 2 ≤ s₁.length →
      s₁.length = s₂.length → (∃ c ∈ s₂, isHexLetter c = true) →
      calculate_shannon_entropy hexCharset s₁ = calculate_shannon_entropy hexCharset s₂ →
      hex_calculate_shannon_entropy s₁ < hex_calculate_shannon_entropy s₂) := by
  have hformula : ∀ data : List Char, 2 ≤ data.length → pyIntLiteral data = true →
      hex_calculate_shannon_entropy data =
        calculate_shannon_entropy hexCharset data - 1.2 / Real.logb 2 (data.length : ℝ) := by
    intro data hlen hint
    unfold hex_calculate_shannon_entropy
    rw [if_neg (by simp only [beq_iff_eq]; omega), if_pos (by simp [hint])]
    rfl
  have hanti : ∀ m n : Nat, 2 ≤ m → m < n → hexPenalty n < hexPenalty m := by
    intro m n hm hmn
    unfold hexPenalty
    have h1 : (0 : ℝ) < Real.logb 2 (m : ℝ) :=
      Real.logb_pos (by norm_num) (by exact_mod_cast (by omega : 1 < m))
    have h2 : Real.logb 2 (m : ℝ) < Real.logb 2 (n : ℝ) := by
      refine Real.logb_lt_logb (by norm_num) ?_ (by exact_mod_cast hmn)
      exact_mod_cast (by omega : 0 < m)
    exact div_lt_div_of_pos_left (by norm_num) h1 h2
  refine ⟨hformula, ?_, ?_, hanti, ?_⟩
  · intro data h1
    unfold hex_calculate_shannon_entropy
    rw [if_pos (by simp [h1])]
  · intro data hint
    unfold hex_calculate_shannon_entropy
    by_cases h1 : (data.length == 1) = true
    · rw [if_pos h1]
    · rw [if_neg h1, if_neg (by simp [hint])]
  · intro s₁ s₂ hdig hlen hll hex hE
    have hne : s₁ ≠ [] := by
      intro hnil
      rw [hnil] at hlen
      simp at hlen
    have h1 : hex_calculate_shannon_entropy s₁ =
        calculate_shannon_entropy hexCharset s₁ - hexPenalty s₁.length := by
      unfold hex_calculate_shannon_entropy
      rw [if_neg (by simp only [beq_iff_eq]; omega),
        if_pos (by simp [pyIntLiteral_all_digits s₁ hne hdig])]
    have h2 : hex_calculate_shannon_entropy s₂ =
        calculate_shannon_entropy hexCharset s₂ := by
      obtain ⟨c, hcmem, hcl⟩ := hex
      unfold hex_calculate_shannon_entropy
      by_cases hl1 : (s₂.length == 1) = true
      · rw [if_pos hl1]
      · rw [if_neg hl1, if_neg (by simp [pyIntLiteral_hexLetter s₂ c hcmem hcl])]
    rw [h1, h2, ← hE]
    have hpen : 0 < hexPenalty s₁.length := hexPenalty_pos s₁.length hlen
    linarith

theorem claim_c8_witness :
    2 ≤ (['1', '1'] : List Char).length ∧
    pyIntLiteral ['1', '1'] = true ∧
    hex_calculate_shannon_entropy ['1', '1'] =
      calculate_shannon_entropy hexCharset ['1', '1'] -
        1.2 / Real.logb 2 ((['1', '1'] : List Char).length : ℝ) ∧
    hexPenalty 3 < hexPenalty 2 ∧
    hex_calculate_shannon_entropy ['7'] =
      calculate_shannon_entropy hexCharset ['7'] ∧
    hex_calculate_shannon_entropy ['a', '1'] =
      calculate_shannon_entropy hexCharset ['a', '1'] ∧
    hex_calculate_shannon_entropy ['1', '1'] <
      hex_calculate_shannon_entropy ['a', 'a'] := by
  have e1 : calculate_shannon_entropy hexCharset ['1', '1'] = 0 :=
    entropy_replicate hexCharset '1' 2 (by norm_num)
  have e2 : calculate_shannon_entropy hexCharset ['a', 'a'] = 0 :=
    entropy_replicate hexCharset 'a' 2 (by norm_num)
  refine ⟨by decide, by decide, ?_, ?_, ?_, ?_, ?_⟩
  · exact claim_c8_hex_entropy_penalty.1 ['1', '1'] (by decide) (by decide)
  · exact claim_c8_hex_entropy_penalty.2.2.2.1 2 3 (by norm_num) (by norm_num)
  · exact claim_c8_hex_entropy_penalty.2.1 ['7'] (by decide)
  · exact claim_c8_hex_entropy_penalty.2.2.1 ['a', '1'] (by decide)
  · exact claim_c8_hex_entropy_penalty.2.2.2.2 ['1', '1'] ['a', 'a'] (by decide)
      (by decide) (by decide) (by decide) (e1.trans e2.symm)

/-! ## Entropy plugin regex state
(`plugins/high_entropy_strings.py`, `non_quoted_string_regex`) -/

/-- Python `re.escape`: characters other than ASCII letters, digits and
underscore are backslash-escaped. -/
def reEscapeChar (c : Char) : String :=
  if c.isAlphanum || c == '_' then String.singleton c
  else "\\" ++ String.singleton c

def reEscape (s : String) : String :=
  String.join (s.toList.map reEscapeChar)

/-- The single-quote character (codepoint 39). -/
def singleQuoteChar : Char := Char.ofNat 39

/-- The constructor's quoted pattern: an opening quote (single or double), one
or more charset characters as a capturing group, and a back-reference to the
opening quote. -/
def quotedRegexPattern (charset : String) : String :=
  "([" ++ String.singleton singleQuoteChar ++ "\"])([" ++ reEscape charset ++ "]+)(\\1)"

/-- The attributes of a `HighEntropyStringsPlugin` instance:
`self.charset`, `self.entropy_limit` and the pattern of `self.regex`. -/
structure HighEntropyStringsState where
  charset : String
  entropy_limit : ℝ
  regex : String

/-- `HighEntropyStringsPlugin.__init__`: reject a limit outside `[0, 8]`
(`ValueError`), otherwise store the charset and limit and compile the quoted
pattern. -/
noncomputable def hes_init (charset : String) (limit : ℝ) :
    Except Unit HighEntropyStringsState :=
  if limit < 0 ∨ limit > 8 then .error ()
  else .ok { charset := charset, entropy_limit := limit,
             regex := quotedRegexPattern charset }

/-- The charset-only alternative pattern, anchored with `^...$` exactly when
`is_exact_match` holds. -/
def altCharsetPattern (charset : String) (is_exact_match : Bool) : String :=
  let alt := "([" ++ reEscape charset ++ "]+)"
  if is_exact_match then "^" ++ alt ++ "$" else alt

/-- The plugin state as the context-manager body sees it: `self.regex`
replaced by the charset-only pattern. -/
def enterNonQuoted (is_exact_match : Bool) (s : HighEntropyStringsState) :
    HighEntropyStringsState :=
  { s with regex := altCharsetPattern s.charset is_exact_match }

/-- The `non_quoted_string_regex` context manager around a body: save
`self.regex`, install the charset-only pattern, run the body — which may
return a value or raise (`Except.error`), and may itself mutate the state —
and in the `finally` clause restore the saved pattern regardless. -/
def non_quoted_string_regex (ε β : Type) (is_exact_match : Bool)
    (body : HighEntropyStringsState → Except ε β × HighEntropyStringsState)
    (s : HighEntropyStringsState) : Except ε β × HighEntropyStringsState :=
  let old_regex := s.regex
  let p := body (enterNonQuoted is_exact_match s)
  (p.1, { p.2 with regex := old_regex })

/-- Claim C10: entering `non_quoted_string_regex` replaces `self.regex` with
the charset-only pattern — anchored by `^...$` exactly when `is_exact_match`
is true — leaving `charset` and `entropy_limit` untouched; and on exit,
whether the body returned normally or raised (`Except.error`), `self.regex`
is restored to exactly the pattern held before entry, while the context
manager itself never alters `charset` or `entropy_limit`. -/
theorem claim_c10_non_quoted_regex_frame (ε β : Type) (is_exact_match : Bool)
    (body : HighEntropyStringsState → Except ε β × HighEntropyStringsState)
    (s : HighEntropyStringsState) :
    (enterNonQuoted is_exact_match s).regex =
      altCharsetPattern s.charset is_exact_match ∧
    (enterNonQuoted is_exact_match s).charset = s.charset ∧
    (enterNonQuoted is_exact_match s).entropy_limit = s.entropy_limit ∧
    altCharsetPattern s.charset true = "^" ++ altCharsetPattern s.charset false ++ "$" ∧
    non_quoted_string_regex ε β is_exact_match body s =
      ((body (enterNonQuoted is_exact_match s)).1,
        { (body (enterNonQuoted is_exact_match s)).2 with regex := s.regex }) ∧
    ((non_quoted_string_regex ε β is_exact_match body s).2).regex = s.regex ∧
    ((non_quoted_string_regex ε β is_exact_match body s).2).charset =
      ((body (enterNonQuoted is_exact_match s)).2).charset ∧
    ((non_quoted_string_regex ε β is_exact_match body s).2).entropy_limit =
      ((body (enterNonQuoted is_exact_match s)).2).entropy_limit :=
  ⟨rfl, rfl, rfl, rfl, rfl, rfl, rfl, rfl⟩

end DetectSecrets
